import Mathlib

/-!
Shallow embedding of `src/Tinylink.py` (TinyLink URL shortener).

The SQLite table `links (code TEXT PRIMARY KEY, target_url TEXT NOT NULL,
clicks INTEGER DEFAULT 0, created_at TEXT NOT NULL, last_clicked TEXT)` is
modelled as a list of `LinkRecord` in insertion (rowid) order.  The random
source used by `generate_code` is modelled as an oracle `pick : Nat → Nat`
giving the successive indices chosen from the 62-character population, and
`datetime.utcnow().isoformat()` is modelled by passing the current timestamp
string `now` as an explicit argument.
-/

namespace Tinylink

/-- One row of the `links` table (lines 13-21 of the source).
`clicks` is an SQLite INTEGER, modelled as `Int`; `last_clicked` is nullable. -/
structure LinkRecord where
  code : String
  target_url : String
  clicks : Int
  created_at : String
  last_clicked : Option String
deriving Repr, DecidableEq

/-- The `links` table, in rowid (insertion) order. -/
abbrev Store := List LinkRecord

/-- `string.ascii_letters + string.digits`: the 62-character population
`random.choices` draws from in `generate_code` (line 30). -/
def alphabet : List Char :=
  "abcdefghijklmnopqrstuvwxyzABCDEFGHIJKLMNOPQRSTUVWXYZ0123456789".toList

/-- `generate_code(n=6)` (lines 29-30): n independent uniform draws from the
62-character alphabet.  The random source is the oracle `pick`; draw `i` is
the population element at index `pick i % 62`. -/
def generate_code (pick : Nat → Nat) (n : Nat := 6) : String :=
  String.mk ((List.range n).map (fun i => alphabet.getD (pick i % alphabet.length) 'a'))

/-- Membership in the character class `[A-Za-z0-9]` of `CODE_REGEX` (line 27). -/
def isCodeChar (c : Char) : Bool :=
  (('A' ≤ c && c ≤ 'Z') || ('a' ≤ c && c ≤ 'z') || ('0' ≤ c && c ≤ '9'))

/-- `re.fullmatch(CODE_REGEX, s)` for `CODE_REGEX = r"^[A-Za-z0-9]{6,8}$"`
(lines 27, 34): 6 to 8 characters, all alphanumeric. -/
def matches_code_regex (s : String) : Bool :=
  6 ≤ s.length && s.length ≤ 8 && s.data.all isCodeChar

/-- Python truthiness of the optional `code` argument of `create_link`
(lines 33 and 37): `None` and the empty string are falsy. -/
def truthy : Option String → Bool
  | none => false
  | some s => !(s == "")

/-- Whether a row with this code exists: the PRIMARY KEY constraint on
`code` makes the INSERT at lines 41-44 raise `sqlite3.IntegrityError`
exactly when such a row exists. -/
def hasCode (store : Store) (c : String) : Bool :=
  store.any (fun r => r.code == c)

/-- The `try: INSERT ... except sqlite3.IntegrityError` block of
`create_link` (lines 40-48): one single insert attempt of
`(code, url, clicks=0, created_at=now)` (`last_clicked` omitted, hence NULL);
on a uniqueness violation it returns `(False, "Code already exists.")`
without retrying. -/
def insert_attempt (store : Store) (url c now : String) : Store × (Bool × String) :=
  if hasCode store c then (store, (false, "Code already exists."))
  else (store ++ [⟨c, url, 0, now, none⟩], (true, c))

/-- `create_link(url, code=None)` (lines 32-48).  A truthy requested code is
validated against `CODE_REGEX`; a falsy one is replaced by `generate_code()`
(default length 6); then a single insert is attempted. -/
def create_link (pick : Nat → Nat) (now : String) (store : Store) (url : String)
    (code : Option String) : Store × (Bool × String) :=
  if truthy code then
    if matches_code_regex (code.getD "") then insert_attempt store url (code.getD "") now
    else (store, (false, "Code must be 6–8 alphanumeric characters."))
  else
    insert_attempt store url (generate_code pick 6) now

/-- `get_link(code)` (lines 51-53): `SELECT ... WHERE code=?` then
`fetchone()` — the first row with this code, or nothing. -/
def get_link (store : Store) (c : String) : Option LinkRecord :=
  store.find? (fun r => r.code == c)

/-- `delete_link(code)` (lines 56-58): `DELETE FROM links WHERE code=?`. -/
def delete_link (store : Store) (c : String) : Store :=
  store.filter (fun r => !(r.code == c))

/-- `increment_click(code)` (lines 61-68): `UPDATE links SET
clicks = clicks + 1, last_clicked = ? WHERE code = ?` — an in-place atomic
update of every row with this code. -/
def increment_click (now : String) (store : Store) (c : String) : Store :=
  store.map (fun r =>
    if r.code == c then { r with clicks := r.clicks + 1, last_clicked := some now } else r)

/-- The redirect handling block (lines 74-89), the spec's `recordHit`:
`get_link`, then if a row was found `increment_click` and redirect to the
`target_url` taken from the row read (`link[1]`), else a 404.  Returns the
resulting store and the emitted redirect target (or `none` for 404). -/
def recordHit (now : String) (store : Store) (c : String) : Store × Option String :=
  match get_link store c with
  | none => (store, none)
  | some link => (increment_click now store c, some link.target_url)

/-- Lexicographic comparison on lists of characters: the order SQLite uses
to compare TEXT values (memcmp on the UTF-8 bytes agrees with this on the
ASCII timestamps stored in `created_at`). -/
def charListLe : List Char → List Char → Bool
  | [], _ => true
  | _ :: _, [] => false
  | a :: as, b :: bs => if a = b then charListLe as bs else a < b

/-- Comparator of the dashboard query: row `a` may come before row `b`
exactly when `a.created_at` is lexicographically ≥ `b.created_at`. -/
def newestFirst (a b : LinkRecord) : Bool :=
  charListLe b.created_at.data a.created_at.data

/-- The dashboard's `listAll` query (line 110):
`SELECT * FROM links ORDER BY created_at DESC`. -/
def listAll (store : Store) : List LinkRecord :=
  store.mergeSort newestFirst

/-- The registry operations, for stating invariants that every operation
preserves. -/
inductive Op where
  | create (pick : Nat → Nat) (now url : String) (code : Option String)
  | get (c : String)
  | delete (c : String)
  | hit (now c : String)
  | list

/-- The store after running one operation.  `get` and `list` are the
read-only SELECTs of lines 51-53 and 110. -/
def applyOp : Op → Store → Store
  | .create pick now url code, s => (create_link pick now s url code).1
  | .get _, s => s
  | .delete c, s => delete_link s c
  | .hit now c, s => (recordHit now s c).1
  | .list, s => s

/-- Whether an operation is the hit-recording operation. -/
def Op.isHit : Op → Bool
  | .hit _ _ => true
  | _ => false

/-- A fixed random oracle that always picks index 0, so that
`generate_code pick0 6 = "aaaaaa"`. -/
def pick0 : Nat → Nat := fun _ => 0

/-! ### Helper lemmas -/

theorem get_link_eq_none_of_hasCode_eq_false {s : Store} {c : String}
    (h : hasCode s c = false) : get_link s c = none := by
  rw [get_link, List.find?_eq_none]
  intro r hr hrc
  have : hasCode s c = true := List.any_eq_true.mpr ⟨r, hr, hrc⟩
  rw [h] at this
  exact Bool.false_ne_true this

theorem get_link_append (s : Store) (r : LinkRecord) (c : String) :
    get_link (s ++ [r]) c =
      (get_link s c).or (if r.code == c then some r else none) := by
  rw [get_link, get_link, List.find?_append]
  congr 1
  simp [List.find?]
  split <;> simp_all

theorem get_link_increment (now c cq : String) (s : Store) :
    get_link (increment_click now s c) cq =
      (get_link s cq).map (fun r =>
        if r.code == c then { r with clicks := r.clicks + 1, last_clicked := some now }
        else r) := by
  rw [get_link, increment_click, List.find?_map, get_link]
  have hp : ((fun r : LinkRecord => r.code == cq) ∘ (fun r =>
      if r.code == c then { r with clicks := r.clicks + 1, last_clicked := some now }
      else r)) = (fun r : LinkRecord => r.code == cq) := by
    funext r
    by_cases h : r.code == c <;> simp [h, Function.comp]
  rw [hp]

theorem get_link_delete_self (s : Store) (c : String) :
    get_link (delete_link s c) c = none := by
  rw [get_link, List.find?_eq_none]
  intro r hr
  have := (List.mem_filter.mp hr).2
  simpa using this

theorem get_link_delete_ne {cq c : String} (h : cq ≠ c) (s : Store) :
    get_link (delete_link s c) cq = get_link s cq := by
  induction s with
  | nil => rfl
  | cons r s ih =>
      by_cases hr : r.code == c
      · have hc : r.code = c := by simpa using hr
        have hrq : (r.code == cq) = false := by
          simp only [hc, beq_eq_false_iff_ne, ne_eq]
          exact fun hh => h hh.symm
        simp [delete_link, get_link, List.filter, hr, List.find?, hrq] at ih ⊢
        exact ih
      · by_cases hrq : r.code == cq <;>
          simp [delete_link, get_link, List.filter, hr, List.find?, hrq] at ih ⊢
        exact ih

theorem mem_of_getD_lt {n : Nat} (h : n < alphabet.length) :
    alphabet.getD n 'a' ∈ alphabet := by
  rw [List.getD_eq_getElem?_getD, List.getElem?_eq_getElem h]
  exact List.getElem_mem h

theorem isCodeChar_alphabet : ∀ c ∈ alphabet, isCodeChar c = true := by decide

theorem generate_code_spec (pick : Nat → Nat) :
    (generate_code pick 6).length = 6 ∧
      matches_code_regex (generate_code pick 6) = true := by
  have hlen : (generate_code pick 6).length = 6 := by
    simp [generate_code, String.length]
  refine ⟨hlen, ?_⟩
  have hall : ∀ c ∈ (generate_code pick 6).data, isCodeChar c = true := by
    intro c hc
    simp only [generate_code, List.mem_map, List.mem_range] at hc
    obtain ⟨i, -, rfl⟩ := hc
    exact isCodeChar_alphabet _ (mem_of_getD_lt (Nat.mod_lt _ (by decide)))
  rw [matches_code_regex, hlen]
  simp only [Bool.and_eq_true, decide_eq_true_eq, List.all_eq_true]
  exact ⟨⟨by decide, by decide⟩, hall⟩

theorem charListLe_total : ∀ a b : List Char, (charListLe a b || charListLe b a) = true
  | [], _ => by simp [charListLe]
  | _ :: _, [] => by simp [charListLe]
  | a :: as, b :: bs => by
      by_cases h : a = b
      · subst h
        simpa [charListLe] using charListLe_total as bs
      · simp only [charListLe, if_neg h, if_neg (Ne.symm h), Bool.or_eq_true,
          decide_eq_true_eq]
        exact lt_or_gt_of_ne h

theorem charListLe_trans :
    ∀ a b c : List Char, charListLe a b = true → charListLe b c = true →
      charListLe a c = true
  | [], _, _, _, _ => rfl
  | _ :: _, [], _, hab, _ => by simp [charListLe] at hab
  | _ :: _, _ :: _, [], _, hbc => by simp [charListLe] at hbc
  | a :: as, b :: bs, c :: cs, hab, hbc => by
      by_cases h1 : a = b <;> by_cases h2 : b = c
      · subst h1; subst h2
        simp only [charListLe, if_pos rfl] at hab hbc ⊢
        exact charListLe_trans as bs cs hab hbc
      · subst h1
        simpa [charListLe, h2] using hbc
      · subst h2
        simpa [charListLe, h1] using hab
      · simp only [charListLe, if_neg h1, if_neg h2, decide_eq_true_eq] at hab hbc
        have hac : a < c := lt_trans hab hbc
        simp [charListLe, ne_of_lt hac, hac]

theorem create_link_store_cases (pick : Nat → Nat) (now url : String)
    (code : Option String) (s : Store) :
    ((create_link pick now s url code).1 = s ∧
      (create_link pick now s url code).2.1 = false) ∨
    (∃ c, hasCode s c = false ∧
      create_link pick now s url code =
        (s ++ [⟨c, url, 0, now, none⟩], (true, c))) := by
  unfold create_link insert_attempt
  split_ifs with h1 h2 h3 h4
  · exact Or.inl ⟨rfl, rfl⟩
  · exact Or.inr ⟨_, Bool.of_not_eq_true h3, rfl⟩
  · exact Or.inl ⟨rfl, rfl⟩
  · exact Or.inl ⟨rfl, rfl⟩
  · exact Or.inr ⟨_, Bool.of_not_eq_true h4, rfl⟩

theorem create_success_init (pick : Nat → Nat) (now url : String)
    (code : Option String) (s : Store)
    (h : (create_link pick now s url code).2.1 = true) :
    ∃ r, get_link (create_link pick now s url code).1
        (create_link pick now s url code).2.2 = some r ∧
      r.clicks = 0 ∧ r.last_clicked = none := by
  rcases create_link_store_cases pick now url code s with ⟨-, hfail⟩ | ⟨c, hfresh, hform⟩
  · rw [h] at hfail
    exact absurd hfail (by decide)
  · refine ⟨⟨c, url, 0, now, none⟩, ?_, rfl, rfl⟩
    rw [hform]
    rw [get_link_append, get_link_eq_none_of_hasCode_eq_false hfresh]
    simp

/-! ### Claim theorems -/

/-- C1 (counterexample): it is not true that `create` with no requested code
always returns success — when the auto-generated code (here `"aaaaaa"`, from
the constant oracle `pick0`) collides with an existing row, the single insert
attempt hits the PRIMARY KEY constraint and `create_link` reports failure. -/
theorem create_autogen_collision_fails :
    generate_code pick0 6 = "aaaaaa" ∧
    (create_link pick0 "2024-06-02T00:00:00"
        [⟨"aaaaaa", "https://x.com", 0, "2024-06-01T00:00:00", none⟩]
        "https://example.com" none).2.1 = false := by decide

/-- C1 (amended): for every valid target URL, if the auto-generated code does
not collide with a stored code, `create` with no requested code returns
success with that code, which has length 6 and matches
`^[A-Za-z0-9]{6,8}$`, and a subsequent `get` on it returns a record with
`clicks = 0` and `last_clicked = none`. -/
theorem create_autogen_fresh (pick : Nat → Nat) (now url : String) (s : Store)
    (hfresh : hasCode s (generate_code pick 6) = false) :
    (create_link pick now s url none).2.1 = true ∧
    (create_link pick now s url none).2.2 = generate_code pick 6 ∧
    matches_code_regex (create_link pick now s url none).2.2 = true ∧
    (create_link pick now s url none).2.2.length = 6 ∧
    get_link (create_link pick now s url none).1 (create_link pick now s url none).2.2 =
      some ⟨generate_code pick 6, url, 0, now, none⟩ := by
  have hstep : create_link pick now s url none =
      (s ++ [⟨generate_code pick 6, url, 0, now, none⟩],
        (true, generate_code pick 6)) := by
    simp [create_link, truthy, insert_attempt, hfresh]
  rw [hstep]
  refine ⟨rfl, rfl, (generate_code_spec pick).2, (generate_code_spec pick).1, ?_⟩
  rw [get_link_append, get_link_eq_none_of_hasCode_eq_false hfresh]
  simp

/-- C1 (witness): on the empty store the freshness hypothesis holds and the
amended claim evaluates as stated. -/
theorem create_autogen_fresh_witness :
    hasCode ([] : Store) (generate_code pick0 6) = false ∧
    (create_link pick0 "t1" ([] : Store) "https://example.com" none).2.1 = true ∧
    get_link (create_link pick0 "t1" ([] : Store) "https://example.com" none).1
        (create_link pick0 "t1" ([] : Store) "https://example.com" none).2.2 =
      some ⟨generate_code pick0 6, "https://example.com", 0, "t1", none⟩ :=
  ⟨by decide,
    (create_autogen_fresh pick0 "t1" "https://example.com" [] (by decide)).1,
    (create_autogen_fresh pick0 "t1" "https://example.com" [] (by decide)).2.2.2.2⟩

/-- C3 (counterexample): the empty string does not match
`^[A-Za-z0-9]{6,8}$`, yet `create` with requested code `""` does not fail
with the invalid-format error — being falsy, `""` skips validation, a code
is auto-generated, and (on the empty store) the call succeeds and persists a
record. -/
theorem create_empty_code_not_rejected :
    matches_code_regex "" = false ∧
    (create_link pick0 "t1" ([] : Store) "https://example.com" (some "")).2 =
      (true, "aaaaaa") ∧
    (create_link pick0 "t1" ([] : Store) "https://example.com" (some "")).1 ≠
      ([] : Store) := by decide

/-- C3 (amended): for every non-empty requested code that does not match
`^[A-Za-z0-9]{6,8}$`, `create` fails with the invalid-code-format error and
the store is unchanged. -/
theorem create_invalid_code_rejected (pick : Nat → Nat) (now url c : String)
    (s : Store) (hne : c ≠ "") (hbad : matches_code_regex c = false) :
    create_link pick now s url (some c) =
      (s, (false, "Code must be 6–8 alphanumeric characters.")) := by
  have ht : truthy (some c) = true := by simp [truthy, hne]
  simp [create_link, ht, hbad]

/-- C3 (witness): the amended claim evaluated on requested code `"ab"`. -/
theorem create_invalid_code_rejected_witness :
    ("ab" : String) ≠ "" ∧ matches_code_regex "ab" = false ∧
    create_link pick0 "t1" ([] : Store) "https://example.com" (some "ab") =
      ([], (false, "Code must be 6–8 alphanumeric characters.")) :=
  ⟨by decide, by decide,
    create_invalid_code_rejected pick0 "t1" "https://example.com" "ab" []
      (by decide) (by decide)⟩

/-- C4: a `create` with a well-formed requested code that already exists in
the store fails with the code-already-exists error and leaves the store
(in particular the existing record) unchanged; the returned pair shows the
single insert attempt was not retried. -/
theorem create_duplicate_code_fails (pick : Nat → Nat) (now url c : String)
    (s : Store) (hmatch : matches_code_regex c = true) (hex : hasCode s c = true) :
    create_link pick now s url (some c) = (s, (false, "Code already exists.")) := by
  have hlen : 6 ≤ c.length := by
    rw [matches_code_regex] at hmatch
    simp only [Bool.and_eq_true, decide_eq_true_eq] at hmatch
    exact hmatch.1.1
  have hne : (c == "") = false := by
    rw [beq_eq_false_iff_ne]
    intro hc
    rw [hc] at hlen
    exact absurd hlen (by decide)
  have ht : truthy (some c) = true := by simp [truthy, hne]
  simp [create_link, ht, hmatch, insert_attempt, hex]

/-- C4 (witness): creating `"abc123"` a second time fails and changes
nothing. -/
theorem create_duplicate_code_fails_witness :
    matches_code_regex "abc123" = true ∧
    hasCode [⟨"abc123", "https://example.com", 0, "t0", none⟩] "abc123" = true ∧
    create_link pick0 "t1" [⟨"abc123", "https://example.com", 0, "t0", none⟩]
        "https://other.com" (some "abc123") =
      ([⟨"abc123", "https://example.com", 0, "t0", none⟩],
        (false, "Code already exists.")) :=
  ⟨by decide, by decide,
    create_duplicate_code_fails pick0 "t1" "https://other.com" "abc123"
      [⟨"abc123", "https://example.com", 0, "t0", none⟩] (by decide) (by decide)⟩

/-- C5: `recordHit` on a code absent from the store returns the 404 outcome
and leaves the store exactly as it was: no record is created and no record
changes. -/
theorem recordHit_absent_noop (now c : String) (s : Store)
    (h : get_link s c = none) :
    recordHit now s c = (s, none) := by
  simp [recordHit, h]

/-- C5 (witness): a hit on code `"zzzzzz"`, absent from a one-record store,
is a no-op. -/
theorem recordHit_absent_noop_witness :
    get_link [⟨"abc123", "https://example.com", 0, "t0", none⟩] "zzzzzz" = none ∧
    recordHit "t1" [⟨"abc123", "https://example.com", 0, "t0", none⟩] "zzzzzz" =
      ([⟨"abc123", "https://example.com", 0, "t0", none⟩], none) :=
  ⟨by decide,
    recordHit_absent_noop "t1" "zzzzzz"
      [⟨"abc123", "https://example.com", 0, "t0", none⟩] (by decide)⟩

/-- C2: `recordHit` on a code present in the store emits a redirect to that
record's `target_url`, and afterwards the record has `clicks` incremented by
exactly 1 and `last_clicked` set to the current timestamp while its `code`,
`target_url` and `created_at` are unchanged; every record with a different
code is untouched. -/
theorem recordHit_present_spec (now c : String) (s : Store) (r : LinkRecord)
    (h : get_link s c = some r) :
    (recordHit now s c).2 = some r.target_url ∧
    get_link (recordHit now s c).1 c =
      some ⟨r.code, r.target_url, r.clicks + 1, r.created_at, some now⟩ ∧
    (∀ cq, cq ≠ c → get_link (recordHit now s c).1 cq = get_link s cq) ∧
    (∀ q ∈ s, q.code ≠ c → q ∈ (recordHit now s c).1) := by
  have hcode0 := List.find?_some (show List.find? (fun q => q.code == c) s = some r from h)
  have hcode : (r.code == c) = true := hcode0
  have hs1 : (recordHit now s c).1 = increment_click now s c := by
    simp [recordHit, h]
  have hs2 : (recordHit now s c).2 = some r.target_url := by
    simp [recordHit, h]
  refine ⟨hs2, ?_, ?_, ?_⟩
  · rw [hs1, get_link_increment, h]
    have hceq : r.code = c := by simpa using hcode
    simp [hceq]
  · intro cq hcq
    rw [hs1, get_link_increment]
    cases hq : get_link s cq with
    | none => simp
    | some q =>
        have hqeq : q.code = cq := by
          simpa using
            List.find?_some (show List.find? (fun t => t.code == cq) s = some q from hq)
        have hqne : q.code ≠ c := by
          rw [hqeq]
          exact hcq
        simp [hqne]
  · intro q hq hqc
    rw [hs1, increment_click]
    refine List.mem_map.mpr ⟨q, hq, ?_⟩
    simp [hqc]

/-- C2 (witness): a hit on an existing record with 5 clicks redirects to its
URL and leaves it with 6 clicks and a fresh `last_clicked`. -/
theorem recordHit_present_spec_witness :
    get_link [⟨"abc123", "https://example.com", 5, "t0", some "t1"⟩] "abc123" =
      some ⟨"abc123", "https://example.com", 5, "t0", some "t1"⟩ ∧
    (recordHit "t2" [⟨"abc123", "https://example.com", 5, "t0", some "t1"⟩]
        "abc123").2 = some "https://example.com" ∧
    get_link (recordHit "t2" [⟨"abc123", "https://example.com", 5, "t0", some "t1"⟩]
        "abc123").1 "abc123" =
      some ⟨"abc123", "https://example.com", 6, "t0", some "t2"⟩ :=
  ⟨by decide,
    (recordHit_present_spec "t2" "abc123"
      [⟨"abc123", "https://example.com", 5, "t0", some "t1"⟩]
      ⟨"abc123", "https://example.com", 5, "t0", some "t1"⟩ (by decide)).1,
    (recordHit_present_spec "t2" "abc123"
      [⟨"abc123", "https://example.com", 5, "t0", some "t1"⟩]
      ⟨"abc123", "https://example.com", 5, "t0", some "t1"⟩ (by decide)).2.1⟩

/-- C6: `delete` is idempotent — deleting a code with no matching record
leaves the store unchanged, and deleting the same code twice has exactly the
effect of deleting it once. -/
theorem delete_idempotent_spec (c : String) (s : Store) :
    (get_link s c = none → delete_link s c = s) ∧
    delete_link (delete_link s c) c = delete_link s c := by
  constructor
  · intro h
    rw [get_link, List.find?_eq_none] at h
    rw [delete_link, List.filter_eq_self]
    intro a ha
    simpa using h a ha
  · simp only [delete_link]
    rw [List.filter_filter]
    congr 1
    funext a
    cases ha : a.code == c <;> simp [ha]

/-- C6 (witness): deleting absent code `"zzzzzz"` is a no-op, and a double
delete of `"abc123"` equals a single delete. -/
theorem delete_idempotent_spec_witness :
    get_link [⟨"abc123", "https://example.com", 0, "t0", none⟩] "zzzzzz" = none ∧
    delete_link [⟨"abc123", "https://example.com", 0, "t0", none⟩] "zzzzzz" =
      [⟨"abc123", "https://example.com", 0, "t0", none⟩] ∧
    delete_link (delete_link [⟨"abc123", "https://example.com", 0, "t0", none⟩]
        "abc123") "abc123" =
      delete_link [⟨"abc123", "https://example.com", 0, "t0", none⟩] "abc123" :=
  ⟨by decide,
    (delete_idempotent_spec "zzzzzz"
      [⟨"abc123", "https://example.com", 0, "t0", none⟩]).1 (by decide),
    (delete_idempotent_spec "abc123"
      [⟨"abc123", "https://example.com", 0, "t0", none⟩]).2⟩

/-- C8: `listAll` returns exactly the records of the store (a permutation of
it), ordered by `created_at` descending — every record comes no later than
any record with a lexicographically smaller (older) `created_at`. -/
theorem listAll_newest_first (s : Store) :
    (listAll s).Perm s ∧
    (listAll s).Pairwise (fun a b => newestFirst a b = true) := by
  refine ⟨List.mergeSort_perm s newestFirst, ?_⟩
  exact @List.sorted_mergeSort _ newestFirst
    (fun a b c hab hbc => charListLe_trans _ _ _ hbc hab)
    (fun a b => charListLe_total b.created_at.data a.created_at.data) s

/-- C9: the redirect block's lookup-then-mutate sequence is two separate
storage statements, not one atomic unit.  Interleaving a `delete` between
the hit's `get_link` (which finds the record, so the block emits a redirect
to its `target_url`) and its `increment_click` (which then updates no row)
yields an outcome the spec excludes: the hit neither fully applies before
the delete (the click is never counted anywhere) nor observes "not found". -/
theorem hit_delete_race_loses_click :
    get_link [⟨"abc123", "https://example.com", 0, "t0", none⟩] "abc123" =
      some ⟨"abc123", "https://example.com", 0, "t0", none⟩ ∧
    increment_click "t1"
        (delete_link [⟨"abc123", "https://example.com", 0, "t0", none⟩] "abc123")
        "abc123" = ([] : Store) := by decide

/-- C10: `create` with the empty string as requested code behaves exactly as
`create` with the code omitted: it never returns the invalid-format error,
and on success the returned code is the auto-generated one, of length 6. -/
theorem create_empty_code_generates (pick : Nat → Nat) (now url : String)
    (s : Store) :
    create_link pick now s url (some "") = create_link pick now s url none ∧
    (create_link pick now s url (some "")).2 ≠
      (false, "Code must be 6–8 alphanumeric characters.") ∧
    ((create_link pick now s url (some "")).2.1 = true →
      (create_link pick now s url (some "")).2.2 = generate_code pick 6 ∧
      (generate_code pick 6).length = 6) := by
  have heq : create_link pick now s url (some "") =
      create_link pick now s url none := by
    simp [create_link, truthy]
  have hgen : create_link pick now s url none =
      insert_attempt s url (generate_code pick 6) now := by
    simp [create_link, truthy]
  refine ⟨heq, ?_, ?_⟩
  · rw [heq, hgen, insert_attempt]
    split_ifs <;> simp
  · intro hsucc
    rw [heq, hgen] at hsucc ⊢
    by_cases hx : hasCode s (generate_code pick 6) = true
    · rw [insert_attempt, if_pos hx] at hsucc
      simp at hsucc
    · rw [insert_attempt, if_neg hx]
      exact ⟨rfl, (generate_code_spec pick).1⟩

/-- C7: every operation preserves non-negativity of every record's `clicks`;
for a record surviving under its code, `clicks` never decreases; every
operation other than hit-recording leaves `clicks` and `last_clicked` of
surviving records unchanged; and `create` initializes a successfully
persisted record with `clicks = 0` and `last_clicked = none`. -/
theorem clicks_invariants (op : Op) (s : Store)
    (hpos : ∀ r ∈ s, 0 ≤ r.clicks) :
    (∀ r ∈ applyOp op s, 0 ≤ r.clicks) ∧
    (∀ c r r', get_link s c = some r → get_link (applyOp op s) c = some r' →
      r.clicks ≤ r'.clicks) ∧
    (op.isHit = false → ∀ c r r', get_link s c = some r →
      get_link (applyOp op s) c = some r' →
      r'.clicks = r.clicks ∧ r'.last_clicked = r.last_clicked) ∧
    (∀ pick now url code, (create_link pick now s url code).2.1 = true →
      ∃ r, get_link (create_link pick now s url code).1
          (create_link pick now s url code).2.2 = some r ∧
        r.clicks = 0 ∧ r.last_clicked = none) := by
  have hinit : ∀ pick now url code, (create_link pick now s url code).2.1 = true →
      ∃ r, get_link (create_link pick now s url code).1
          (create_link pick now s url code).2.2 = some r ∧
        r.clicks = 0 ∧ r.last_clicked = none :=
    fun pick now url code h => create_success_init pick now url code s h
  have hid : ∀ t : Store, t = s →
      (∀ r ∈ t, 0 ≤ r.clicks) ∧
      (∀ c r r', get_link s c = some r → get_link t c = some r' →
        r.clicks ≤ r'.clicks) ∧
      (∀ c r r', get_link s c = some r → get_link t c = some r' →
        r'.clicks = r.clicks ∧ r'.last_clicked = r.last_clicked) := by
    rintro t rfl
    refine ⟨hpos, ?_, ?_⟩ <;> intro c r r' h1 h2 <;> rw [h1] at h2 <;>
      cases h2 <;> simp
  cases op with
  | get c0 =>
      obtain ⟨ha, hb, hc⟩ := hid (applyOp (.get c0) s) rfl
      exact ⟨ha, hb, fun _ => hc, hinit⟩
  | list =>
      obtain ⟨ha, hb, hc⟩ := hid (applyOp .list s) rfl
      exact ⟨ha, hb, fun _ => hc, hinit⟩
  | create pick now url code =>
      rcases create_link_store_cases pick now url code s with ⟨hst, -⟩ | ⟨cg, hfresh, hform⟩
      · obtain ⟨ha, hb, hc⟩ := hid (applyOp (.create pick now url code) s) hst
        exact ⟨ha, hb, fun _ => hc, hinit⟩
      · have hst : applyOp (.create pick now url code) s =
            s ++ [⟨cg, url, 0, now, none⟩] := by
          simp [applyOp, hform]
        rw [hst]
        refine ⟨?_, ?_, ?_, hinit⟩
        · intro r hr
          rcases List.mem_append.mp hr with h | h
          · exact hpos r h
          · rw [List.mem_singleton] at h
            subst h
            simp
        · intro c r r' h1 h2
          rw [get_link_append, h1] at h2
          simp only [Option.or_some] at h2
          cases h2
          simp
        · intro _ c r r' h1 h2
          rw [get_link_append, h1] at h2
          simp only [Option.or_some] at h2
          cases h2
          simp
  | delete c0 =>
      refine ⟨?_, ?_, ?_, hinit⟩
      · intro r hr
        exact hpos r (List.mem_of_mem_filter hr)
      · intro c r r' h1 h2
        by_cases hc : c = c0
        · subst hc
          rw [show applyOp (.delete c) s = delete_link s c from rfl,
            get_link_delete_self] at h2
          cases h2
        · rw [show applyOp (.delete c0) s = delete_link s c0 from rfl,
            get_link_delete_ne hc, h1] at h2
          cases h2
          simp
      · intro _ c r r' h1 h2
        by_cases hc : c = c0
        · subst hc
          rw [show applyOp (.delete c) s = delete_link s c from rfl,
            get_link_delete_self] at h2
          cases h2
        · rw [show applyOp (.delete c0) s = delete_link s c0 from rfl,
            get_link_delete_ne hc, h1] at h2
          cases h2
          simp
  | hit now c0 =>
      cases hg : get_link s c0 with
      | none =>
          have hst : applyOp (.hit now c0) s = s := by
            simp [applyOp, recordHit, hg]
          obtain ⟨ha, hb, hc⟩ := hid (applyOp (.hit now c0) s) hst
          exact ⟨ha, hb, fun hf => by simp [Op.isHit] at hf, hinit⟩
      | some r0 =>
          have hst : applyOp (.hit now c0) s = increment_click now s c0 := by
            simp [applyOp, recordHit, hg]
          rw [hst]
          refine ⟨?_, ?_, fun hf => by simp [Op.isHit] at hf, hinit⟩
          · intro r hr
            rw [increment_click] at hr
            rcases List.mem_map.mp hr with ⟨q, hq, rfl⟩
            have h0 := hpos q hq
            by_cases hqc : (q.code == c0) = true
            · rw [if_pos hqc]
              show 0 ≤ q.clicks + 1
              omega
            · simp only [if_neg hqc]
              exact h0
          · intro c r r' h1 h2
            rw [get_link_increment, h1, Option.map_some'] at h2
            cases h2
            by_cases hqc : (r.code == c0) = true
            · rw [if_pos hqc]
              show r.clicks ≤ r.clicks + 1
              omega
            · rw [if_neg hqc]

/-- C7 (witness): the invariants applied to a `get` on a concrete
one-record store. -/
theorem clicks_invariants_witness :
    0 ≤ (⟨"abc123", "https://example.com", 0, "t0", none⟩ : LinkRecord).clicks :=
  (clicks_invariants (Op.get "abc123")
      [⟨"abc123", "https://example.com", 0, "t0", none⟩]
      (by intro r hr; rw [List.mem_singleton] at hr; subst hr; decide)).1
    ⟨"abc123", "https://example.com", 0, "t0", none⟩
    (by rw [show applyOp (Op.get "abc123")
        [⟨"abc123", "https://example.com", 0, "t0", none⟩] =
        [⟨"abc123", "https://example.com", 0, "t0", none⟩] from rfl,
      List.mem_singleton])

/-- C10 (witness): `create` with requested code `""` on the empty store
succeeds and returns the auto-generated code `"aaaaaa"`. -/
theorem create_empty_code_generates_witness :
    (create_link pick0 "t1" ([] : Store) "https://example.com" (some "")).2.1 = true ∧
    (create_link pick0 "t1" ([] : Store) "https://example.com" (some "")).2.2 =
      generate_code pick0 6 :=
  ⟨by decide,
    ((create_empty_code_generates pick0 "t1" "https://example.com" []).2.2
      (by decide)).1⟩

end Tinylink
